import Mathlib

/-!
Verification of the message-moderation dashboard frontend.

The development shallowly embeds the state-updating logic of the dashboard:

* `Codec` — the filter/URL-parameter codec of `Dashboard.tsx`
  (the `useState` initializers, lines 49-57, and the `useEffect` that writes
  `searchParams`, lines 68-75).  JS numbers reached by this code are either
  integers or `NaN`, so they are modelled as `Option Int` with `none` playing
  the role of `NaN`; `parseInt` and `String(n)` are modelled executably.
* `Dash` — the queue store of `Dashboard.tsx`: `fetchMessages` (lines 77-97),
  `handleTabChange` (175-178), `handleMarkReviewed` (196-204),
  `handleBulkMarkReviewed` (206-214) and the failure branch of
  `handleFetchByDate` (142-156).
* `ApiClient` — the axios response interceptor of `services/api.ts`
  (lines 23-33).
* `Legacy` — the superseded dashboard variant (carried in the repository
  next to the current one) that holds the ingestion controller:
  `handlePullMessages` and the Pull Messages button.
-/

namespace Codec

/-- Decimal digit character: `Char.ofNat (48 + d)` is the character for the
digit `d` when `d < 10`. -/
def digitChar (d : Nat) : Char := Char.ofNat (48 + d)

/-- Numeric value of a digit character, as produced by the usual
`charCode - 48` idiom. -/
def digitVal (c : Char) : Nat := c.toNat - 48

/-- Little-endian decimal digits of `n`, computed with explicit fuel so the
definition is structural.  `natDigitsAux fuel n` is correct whenever
`n ≤ fuel`. -/
def natDigitsAux : Nat → Nat → List Nat
  | 0, _ => []
  | fuel + 1, n => if n = 0 then [] else n % 10 :: natDigitsAux fuel (n / 10)

/-- Little-endian decimal digits of `n` (empty for `0`). -/
def natDigits (n : Nat) : List Nat := natDigitsAux n n

/-- Characters of the usual decimal rendering of a natural number, most
significant digit first; `0` renders as `"0"`.  This models what the
JavaScript `String(n)` conversion produces for a non-negative integer. -/
def natToChars (n : Nat) : List Char :=
  if n = 0 then [Char.ofNat 48] else ((natDigits n).map digitChar).reverse

/-- Model of the JavaScript `String(x)` conversion for the numbers that the
dashboard stores in `scoreRange`: an integer renders in decimal and `NaN`
renders as the string `"NaN"`. -/
def jsStringOfNum : Option Int → String
  | none => "NaN"
  | some n =>
    if n < 0 then String.mk (Char.ofNat 45 :: natToChars n.natAbs)
    else String.mk (natToChars n.natAbs)

/-- Maximal decimal-digit prefix of a character list, as a number; `none`
when the list does not start with a digit. -/
def parseNatPrefix (cs : List Char) : Option Nat :=
  if (cs.takeWhile Char.isDigit).isEmpty then none
  else some ((cs.takeWhile Char.isDigit).foldl (fun a c => 10 * a + digitVal c) 0)

/-- Sign handling of `parseInt`: after whitespace removal, an optional leading
`-` or `+` (character codes 45 and 43) is consumed before the digit prefix. -/
def jsParseChars : List Char → Option Int
  | [] => none
  | c :: rest =>
    if c = Char.ofNat 45 then (parseNatPrefix rest).map (fun n => -(n : Int))
    else if c = Char.ofNat 43 then (parseNatPrefix rest).map (fun n => (n : Int))
    else (parseNatPrefix (c :: rest)).map (fun n => (n : Int))

/-- Model of the JavaScript `parseInt(s)` call on the decimal strings reached
by the dashboard: leading whitespace is skipped, an optional sign is
consumed, then the maximal digit prefix is read; the result is `NaN`
(modelled as `none`) when no digit is found. -/
def jsParseInt (s : String) : Option Int :=
  jsParseChars (s.data.dropWhile Char.isWhitespace)

/-- In-memory filter configuration of the dashboard, as held by the four
`useState` hooks of `Dashboard.tsx` (lines 49-57): the two slider endpoints
(JS numbers, so `Option Int` with `none` for `NaN`), the sort key and the
active tab (plain strings; the `as` cast on the tab performs no runtime
check). -/
structure FilterState where
  scoreMin : Option Int
  scoreMax : Option Int
  sortBy : String
  activeTab : String
deriving DecidableEq

/-- The flat shareable representation: the four URL search parameters read
and written by `Dashboard.tsx`.  `none` models an absent key;
`searchParams.get` returns `null` for an absent key. -/
structure UrlParams where
  scoreMin : Option String
  scoreMax : Option String
  sort : Option String
  tab : Option String
deriving DecidableEq

/-- Encoder, from the `useEffect` at `Dashboard.tsx` lines 68-75: each key is
written only when the value differs from its default
(`scoreMin=0`, `scoreMax=100`, `sort='time'`, `tab='pending'`). -/
def encodeFilter (f : FilterState) : UrlParams where
  scoreMin := if f.scoreMin ≠ some 0 then some (jsStringOfNum f.scoreMin) else none
  scoreMax := if f.scoreMax ≠ some 100 then some (jsStringOfNum f.scoreMax) else none
  sort := if f.sortBy ≠ "time" then some f.sortBy else none
  tab := if f.activeTab ≠ "pending" then some f.activeTab else none

/-- The JS idiom `x ? parseInt(x) : d` used by the numeric `useState`
initializers: `null` and the empty string are falsy and give the default;
any other string is fed to `parseInt`. -/
def decodeNum (v : Option String) (dflt : Int) : Option Int :=
  match v with
  | none => some dflt
  | some s => if s = "" then some dflt else jsParseInt s

/-- The JS idiom `x || d` used by the string `useState` initializers:
`null` and the empty string give the default; any other string is kept
verbatim (no recognition check). -/
def decodeStr (v : Option String) (dflt : String) : String :=
  match v with
  | none => dflt
  | some s => if s = "" then dflt else s

/-- Decoder, from the `useState` initializers at `Dashboard.tsx` lines
49-57. -/
def decodeParams (p : UrlParams) : FilterState where
  scoreMin := decodeNum p.scoreMin 0
  scoreMax := decodeNum p.scoreMax 100
  sortBy := decodeStr p.sort ("time")
  activeTab := decodeStr p.tab ("pending")

/-- A malformed shareable representation: inverted score range and an
unrecognized sort key. -/
def badParams : UrlParams :=
  { scoreMin := some ("80"), scoreMax := some ("20"), sort := some ("garbage"), tab := none }

end Codec

namespace Dash

/-- Message record from `services/api.ts` (interface `Message`); the fields
that the modelled dashboard logic reads or that identify a message are kept
(the remaining fields — provenance ids and names, timestamps, the four
sub-scores — are carried to the UI verbatim and never inspected by the
store operations, so one representative of each kind suffices).
`moderation_score` is nullable in the source; scores are exact here since
no arithmetic is performed on them by the modelled paths. -/
structure Message where
  id : Int
  original_message : String
  processed_message : String
  group_name : Option String
  moderation_score : Option ℚ
  is_reviewed : Bool
deriving DecidableEq

/-- The part of `ModerationQueueResponse` that `fetchMessages` consumes:
`pending_messages`, `total_count`, `unscored_count`. -/
structure QueueData where
  pending_messages : List Message
  total_count : Int
  unscored_count : Int
deriving DecidableEq

/-- The dashboard's own state, as held by the `useState` hooks that the
modelled handlers write: the visible message list, the loading flag, the
total count, the selection, the active tab, the unscored counter, the
fetch-by-date flag and the status message. -/
structure DashState where
  messages : List Message
  loading : Bool
  totalCount : Int
  selectedIds : List Int
  activeTab : String
  unscoredCount : Option Int
  fetching : Bool
  statusMessage : Option String
deriving DecidableEq

/-- Success path of `fetchMessages` (`Dashboard.tsx` lines 77-97): the
response is applied verbatim — `setMessages(data.pending_messages)`,
`setTotalCount(data.total_count)`, `setUnscoredCount(data.unscored_count)` —
with no client-side filtering or sorting and no staleness check, then
`setLoading(false)`. -/
def applyFetchSuccess (s : DashState) (d : QueueData) : DashState :=
  { s with
    messages := d.pending_messages
    totalCount := d.total_count
    unscoredCount := some d.unscored_count
    loading := false }

/-- Failure path of `fetchMessages`: the catch only logs; state other than
the loading flag is untouched. -/
def applyFetchFailure (s : DashState) : DashState := { s with loading := false }

/-- Responses of in-flight `fetchMessages` invocations, processed in the
order in which they arrive.  The source applies every successful response
unconditionally, so the run is a plain left fold. -/
def runFetchArrivals (s : DashState) (arrivals : List QueueData) : DashState :=
  arrivals.foldl applyFetchSuccess s

/-- `handleTabChange` (`Dashboard.tsx` lines 175-178): sets the active tab
and clears the selection. -/
def handleTabChange (s : DashState) (newValue : String) : DashState :=
  { s with activeTab := newValue, selectedIds := [] }

/-- `handleMarkReviewed` (`Dashboard.tsx` lines 196-204): when the single
review request succeeds, the message with that id and the selected id are
filtered out; when it fails, the catch only logs and no state is written. -/
def handleMarkReviewed (s : DashState) (msgId : Int) (requestOk : Bool) : DashState :=
  if requestOk then
    { s with
      messages := s.messages.filter (fun m => m.id ≠ msgId)
      selectedIds := s.selectedIds.filter (fun i => i ≠ msgId) }
  else s

/-- `handleBulkMarkReviewed` (`Dashboard.tsx` lines 206-214): one review
request per selected id under `Promise.all`.  `requestOk` gives the fate of
each id's request.  Only when every request fulfils does the `then`
continuation run (removing all selected ids and clearing the selection);
if any request rejects, `Promise.all` rejects and the catch only logs. -/
def handleBulkMarkReviewed (s : DashState) (requestOk : Int → Bool) : DashState :=
  if s.selectedIds.all requestOk then
    { s with
      messages := s.messages.filter (fun m => !(s.selectedIds.contains m.id))
      selectedIds := ([] : List Int) }
  else s

/-- Failure branch of `handleFetchByDate` (`Dashboard.tsx` lines 142-156):
the catch sets the status message and the fetching flag is lowered. -/
def handleFetchByDateFailure (s : DashState) : DashState :=
  { s with statusMessage := some ("Error fetching messages"), fetching := false }

/-- Fixture: an unscored pending message with id 1. -/
def msg1 : Message := ⟨1, "first", "first", none, none, false⟩

/-- Fixture: an unscored pending message with id 2. -/
def msg2 : Message := ⟨2, "second", "second", none, none, false⟩

/-- Fixture: response belonging to the earlier fetch invocation. -/
def snapOld : QueueData := ⟨[msg1], 1, 0⟩

/-- Fixture: response belonging to the later fetch invocation. -/
def snapNew : QueueData := ⟨[msg2], 1, 0⟩

/-- Fixture: freshly mounted dashboard state. -/
def initState : DashState := ⟨[], true, 0, [], "pending", none, false, none⟩

/-- Fixture: two visible messages, both selected. -/
def bulkState : DashState := ⟨[msg1, msg2], false, 2, [1, 2], "pending", none, false, none⟩

/-- Fixture: per-id request fates in which id 1 succeeds and id 2 fails. -/
def bulkResults : Int → Bool := fun i => decide (i ≠ 2)

/-- Fixture: one visible message, selected. -/
def selState : DashState := ⟨[msg1], false, 1, [1], "pending", none, false, none⟩

/-- Fixture: the three messages of the spec's ordering scenario, with
scores 0.9, 0.5 and 0.31 as exact rationals. -/
def msgHigh : Message := ⟨11, "h", "h", none, some (9 / 10), false⟩

/-- Second message of the ordering scenario. -/
def msgMid : Message := ⟨12, "m", "m", none, some (1 / 2), false⟩

/-- Third message of the ordering scenario. -/
def msgLow : Message := ⟨13, "l", "l", none, some (31 / 100), false⟩

/-- Fixture: a server response already sorted by descending score. -/
def snapSorted : QueueData := ⟨[msgHigh, msgMid, msgLow], 3, 0⟩

end Dash

namespace ApiClient

/-- The two `localStorage` slots that the auth interceptors read and write
(`services/api.ts` and `AuthContext`). -/
structure AuthStorage where
  token : Option String
  user : Option String
deriving DecidableEq

/-- Observable outcome of the axios response interceptor's error handler:
the storage afterwards, the navigation it forced, and whether the error was
propagated onward to the caller. -/
structure InterceptOutcome where
  storage : AuthStorage
  redirect : Option String
  rejected : Bool
deriving DecidableEq

/-- Error branch of `api.interceptors.response.use` (`services/api.ts` lines
23-33): on a 401 status the token and user are removed and the window is
redirected to `/login`; in every case the promise rejection is returned
onward (`return Promise.reject(error)`), so the caller's own catch still
runs.  No retry is issued anywhere in this handler. -/
def responseInterceptorOnError (st : AuthStorage) (status : Option Int) : InterceptOutcome :=
  if status = some 401 then
    { storage := { token := none, user := none }, redirect := some ("/login"), rejected := true }
  else
    { storage := st, redirect := none, rejected := true }

/-- A `fetchMessagesByDate` call that is answered with a 401: the response
interceptor runs first, then — because the rejection is propagated — the
caller's catch (`handleFetchByDateFailure`) runs on the dashboard state. -/
def fetchByDateOn401 (s : Dash.DashState) (auth : AuthStorage) :
    Dash.DashState × InterceptOutcome :=
  let out := responseInterceptorOnError auth (some 401)
  (if out.rejected then Dash.handleFetchByDateFailure s else s, out)

/-- Fixture: a logged-in session. -/
def authBefore : AuthStorage := ⟨some ("tok"), some ("alice")⟩

end ApiClient

namespace Legacy

/-- Result of one poll (`getQueue(1, 'pending')`) inside the ingestion
controller: the number of pending messages it reported, or a transport
error. -/
inductive PollResult
  | ok (pendingCount : Nat)
  | err
deriving DecidableEq

/-- How the ingestion job ended.  The source ends the poll loop on the
condition `pending_messages.length > 0 || attempts >= maxAttempts`; the
first disjunct is success, the second the timeout, and a poll exception the
failure path. -/
inductive JobOutcome
  | succeeded
  | timedOut
  | failed
deriving DecidableEq

/-- What one run of the poll loop did: polls issued, refetches triggered,
how it ended, and the final value of the `ingesting` flag. -/
structure PollStats where
  polls : Nat
  refetches : Nat
  outcome : JobOutcome
  ingesting : Bool
deriving DecidableEq

/-- One tick of the `setInterval` callback in `handlePullMessages` when it
is already the last permitted one (`attempts + 1 >= maxAttempts`): the queue
is polled once; success and timeout alike clear the interval, lower
`ingesting` and trigger one `fetchMessages()` refetch; a poll error clears
the interval and lowers `ingesting` without a refetch. -/
def lastTick (backend : Nat → PollResult) (attempts : Nat) : PollStats :=
  match backend (attempts + 1) with
  | .err => ⟨1, 0, .failed, false⟩
  | .ok p => if 0 < p then ⟨1, 1, .succeeded, false⟩ else ⟨1, 1, .timedOut, false⟩

/-- The `setInterval` poll loop of `handlePullMessages`.  `attempts` is the
counter's value so far and the second argument is `maxAttempts - attempts`,
the number of ticks left before the `attempts >= maxAttempts` cutoff: each
tick increments the counter, polls the queue, stops with a refetch when the
poll reports a pending message or the counter has reached the maximum, and
stops without a refetch on a poll error. -/
def pollLoop (backend : Nat → PollResult) : Nat → Nat → PollStats
  | attempts, 0 => lastTick backend attempts
  | attempts, 1 => lastTick backend attempts
  | attempts, r + 2 =>
    match backend (attempts + 1) with
    | .err => ⟨1, 0, .failed, false⟩
    | .ok p =>
      if 0 < p then ⟨1, 1, .succeeded, false⟩
      else
        let rest := pollLoop backend (attempts + 1) (r + 1)
        ⟨rest.polls + 1, rest.refetches, rest.outcome, rest.ingesting⟩

/-- What one invocation of `handlePullMessages` did in total. -/
structure PullTrace where
  ingestCalls : Nat
  polls : Nat
  refetches : Nat
  outcome : JobOutcome
  ingesting : Bool
deriving DecidableEq

/-- `handlePullMessages` (superseded dashboard, lines 365-391): raises
`ingesting`, issues the backend ingestion action once, and on its
acknowledgement starts the poll loop with `attempts = 0` and
`maxAttempts = 9`; when the ingest call itself fails, `ingesting` is
lowered with no polling. -/
def handlePullMessages (ingestOk : Bool) (backend : Nat → PollResult)
    (maxAttempts : Nat) : PullTrace :=
  if ingestOk then
    let st := pollLoop backend 0 maxAttempts
    ⟨1, st.polls, st.refetches, st.outcome, st.ingesting⟩
  else ⟨1, 0, 0, .failed, false⟩

/-- The flag backing the Pull Messages button. -/
structure UIState where
  ingesting : Bool
deriving DecidableEq

/-- The Pull Messages button (superseded dashboard, lines 119-127):
`onClick={handlePullMessages}` with `disabled={ingesting}`.  A click while
the button is disabled never invokes the handler: no state change, no
backend ingestion action, no job run (`none`). -/
def pullButtonClick (s : UIState) (ingestOk : Bool) (backend : Nat → PollResult)
    (maxAttempts : Nat) : UIState × Option PullTrace :=
  if s.ingesting then (s, none)
  else (⟨true⟩, some (handlePullMessages ingestOk backend maxAttempts))

end Legacy

namespace Codec

theorem natDigitsAux_lt_ten : ∀ (fuel n : Nat), ∀ d ∈ natDigitsAux fuel n, d < 10 := by
  intro fuel
  induction fuel with
  | zero => intro n d hd; simp [natDigitsAux] at hd
  | succ f ih =>
    intro n d hd
    by_cases hn : n = 0
    · simp [natDigitsAux, hn] at hd
    · simp only [natDigitsAux, if_neg hn, List.mem_cons] at hd
      rcases hd with h | h
      · subst h; exact Nat.mod_lt _ (by norm_num)
      · exact ih _ d h

theorem natDigitsAux_ofDigits : ∀ (fuel n : Nat), n ≤ fuel →
    Nat.ofDigits 10 (natDigitsAux fuel n) = n := by
  intro fuel
  induction fuel with
  | zero => intro n hn; interval_cases n; simp [natDigitsAux]
  | succ f ih =>
    intro n hn
    by_cases h0 : n = 0
    · simp [natDigitsAux, h0]
    · have hdiv : n / 10 ≤ f := by
        have := Nat.div_lt_self (Nat.pos_of_ne_zero h0) (by norm_num : 1 < 10)
        omega
      simp only [natDigitsAux, if_neg h0, Nat.ofDigits_cons, ih _ hdiv]
      omega

theorem natDigits_lt_ten (n : Nat) : ∀ d ∈ natDigits n, d < 10 :=
  natDigitsAux_lt_ten n n

theorem natDigits_ofDigits (n : Nat) : Nat.ofDigits 10 (natDigits n) = n :=
  natDigitsAux_ofDigits n n le_rfl

theorem digitChar_isDigit {d : Nat} (hd : d < 10) : (digitChar d).isDigit = true := by
  interval_cases d <;> decide

theorem digitVal_digitChar {d : Nat} (hd : d < 10) : digitVal (digitChar d) = d := by
  interval_cases d <;> decide

theorem takeWhile_isDigit_self : ∀ (cs : List Char),
    (∀ c ∈ cs, c.isDigit = true) → cs.takeWhile Char.isDigit = cs := by
  intro cs h
  induction cs with
  | nil => rfl
  | cons c rest ih =>
    have hc : c.isDigit = true := h c (List.mem_cons_self c rest)
    simp only [List.takeWhile_cons, hc, if_true]
    rw [ih (fun x hx => h x (List.mem_cons_of_mem c hx))]

theorem foldl_digit_chars : ∀ (L : List Nat), (∀ d ∈ L, d < 10) → ∀ (a : Nat),
    ((L.map digitChar).reverse).foldl (fun acc c => 10 * acc + digitVal c) a
      = a * 10 ^ L.length + Nat.ofDigits 10 L := by
  intro L
  induction L with
  | nil => intro _ a; simp
  | cons d T ih =>
    intro h a
    have hd : d < 10 := h d (List.mem_cons_self d T)
    have hT : ∀ x ∈ T, x < 10 := fun x hx => h x (List.mem_cons_of_mem d hx)
    simp only [List.map_cons, List.reverse_cons, List.foldl_append, List.foldl_cons,
      List.foldl_nil, ih hT a, Nat.ofDigits_cons, List.length_cons,
      digitVal_digitChar hd]
    ring

theorem parseNatPrefix_natToChars (n : Nat) : parseNatPrefix (natToChars n) = some n := by
  by_cases h0 : n = 0
  · subst h0; decide
  · have hmem : ∀ c ∈ ((natDigits n).map digitChar).reverse, c.isDigit = true := by
      intro c hc
      rw [List.mem_reverse] at hc
      obtain ⟨d, hd, rfl⟩ := List.mem_map.mp hc
      exact digitChar_isDigit (natDigits_lt_ten n d hd)
    have hne : natDigits n ≠ [] := by
      intro hnil
      have := natDigits_ofDigits n
      rw [hnil] at this
      simp [Nat.ofDigits] at this
      exact h0 this.symm
    have hnil : ((natDigits n).map digitChar).reverse ≠ [] := by
      simp only [ne_eq, List.reverse_eq_nil_iff]
      intro hmapnil
      exact hne (List.map_eq_nil_iff.mp hmapnil)
    have hlen : (((natDigits n).map digitChar).reverse).isEmpty = false := by
      rw [Bool.eq_false_iff]
      exact fun h => hnil (List.isEmpty_iff.mp h)
    unfold parseNatPrefix
    rw [natToChars, if_neg h0, takeWhile_isDigit_self _ hmem]
    rw [if_neg (by rw [hlen]; exact Bool.false_ne_true)]
    rw [foldl_digit_chars (natDigits n) (natDigits_lt_ten n) 0]
    rw [natDigits_ofDigits]
    simp

theorem natToChars_head_digit (n : Nat) :
    ∀ c ∈ natToChars n, c.isDigit = true := by
  intro c hc
  unfold natToChars at hc
  by_cases h0 : n = 0
  · rw [if_pos h0] at hc
    simp only [List.mem_singleton] at hc
    subst hc; decide
  · rw [if_neg h0] at hc
    rw [List.mem_reverse] at hc
    obtain ⟨d, hd, rfl⟩ := List.mem_map.mp hc
    exact digitChar_isDigit (natDigits_lt_ten n d hd)

/-- Round trip at the heart of the codec: parsing the decimal rendering of a
non-negative integer gives the integer back. -/
theorem jsParseInt_jsStringOfNum {a : Int} (ha : 0 ≤ a) :
    jsParseInt (jsStringOfNum (some a)) = some a := by
  have hneg : ¬ a < 0 := not_lt.mpr ha
  simp only [jsStringOfNum]
  rw [if_neg hneg]
  unfold jsParseInt
  cases hcs : natToChars a.natAbs with
  | nil =>
    exfalso
    have := parseNatPrefix_natToChars a.natAbs
    rw [hcs] at this
    simp [parseNatPrefix] at this
  | cons c rest =>
    have hcmem : c ∈ natToChars a.natAbs := by rw [hcs]; exact List.mem_cons_self c rest
    have hcd : c.isDigit = true := natToChars_head_digit a.natAbs c hcmem
    have hsp : c ≠ Char.ofNat 32 := by
      intro h; rw [h] at hcd; exact absurd hcd (by decide)
    have htb : c ≠ Char.ofNat 9 := by
      intro h; rw [h] at hcd; exact absurd hcd (by decide)
    have hcr : c ≠ Char.ofNat 13 := by
      intro h; rw [h] at hcd; exact absurd hcd (by decide)
    have hlf : c ≠ Char.ofNat 10 := by
      intro h; rw [h] at hcd; exact absurd hcd (by decide)
    have hws : c.isWhitespace = false := by
      have e1 : (Char.ofNat 32) = ' ' := by decide
      have e2 : (Char.ofNat 9) = '\t' := by decide
      have e3 : (Char.ofNat 13) = '\r' := by decide
      have e4 : (Char.ofNat 10) = '\n' := by decide
      rw [e1] at hsp; rw [e2] at htb; rw [e3] at hcr; rw [e4] at hlf
      simp [Char.isWhitespace, hsp, htb, hcr, hlf]
    have hminus : ¬ c = Char.ofNat 45 := by
      intro heq
      rw [heq] at hcd
      exact absurd hcd (by decide)
    have hplus : ¬ c = Char.ofNat 43 := by
      intro heq
      rw [heq] at hcd
      exact absurd hcd (by decide)
    have hdata : (String.mk (c :: rest)).data = c :: rest := rfl
    rw [hdata]
    rw [List.dropWhile_cons_of_neg (by rw [hws]; exact Bool.false_ne_true)]
    simp only [jsParseChars]
    rw [if_neg hminus, if_neg hplus]
    rw [← hcs, parseNatPrefix_natToChars]
    simp [Int.natAbs_of_nonneg ha]

theorem natDigits_ne_nil {n : Nat} (h : n ≠ 0) : natDigits n ≠ [] := by
  intro hnil
  have hofd := natDigits_ofDigits n
  rw [hnil, Nat.ofDigits_nil] at hofd
  exact h hofd.symm

theorem natToChars_ne_nil (n : Nat) : natToChars n ≠ [] := by
  unfold natToChars
  by_cases h : n = 0
  · rw [if_pos h]; simp
  · rw [if_neg h]
    intro hx
    rw [List.reverse_eq_nil_iff, List.map_eq_nil_iff] at hx
    exact natDigits_ne_nil h hx

theorem jsStringOfNum_ne_empty {a : Int} (ha : 0 ≤ a) : jsStringOfNum (some a) ≠ "" := by
  simp only [jsStringOfNum, if_neg (not_lt.mpr ha)]
  intro h
  exact natToChars_ne_nil a.natAbs (congrArg String.data h)

theorem decodeNum_encode {a : Int} (dflt : Int) (ha : 0 ≤ a) :
    decodeNum (if (some a : Option Int) ≠ some dflt then some (jsStringOfNum (some a)) else none)
      dflt = some a := by
  by_cases h : a = dflt
  · subst h
    simp [decodeNum]
  · rw [if_pos (by simpa using h)]
    simp only [decodeNum]
    rw [if_neg (jsStringOfNum_ne_empty ha)]
    exact jsParseInt_jsStringOfNum ha

theorem decodeStr_encode {s : String} (dflt : String) (h : s ≠ "") :
    decodeStr (if s ≠ dflt then some s else none) dflt = s := by
  by_cases hd : s = dflt
  · rw [if_neg (by simpa using hd)]
    simp [decodeStr, hd]
  · rw [if_pos (by simpa using hd)]
    simp [decodeStr, h]

/-- C3: for every valid filter configuration — integer score endpoints in
range with `scoreMin ≤ scoreMax`, a recognized sort key and a tab value —
decoding the flat representation produced by encoding gives the
configuration back; the encoder omits defaulted keys and the decoder
restores them. -/
theorem decode_encode_roundtrip (a b : Int) (sk tb : String)
    (ha0 : 0 ≤ a) (ha1 : a ≤ 100) (hb0 : 0 ≤ b) (hb1 : b ≤ 100) (hab : a ≤ b)
    (hs : sk = "time" ∨ sk = "time_asc" ∨ sk = "group" ∨ sk = "score")
    (ht : tb = "pending" ∨ tb = "reviewed") :
    decodeParams (encodeFilter ⟨some a, some b, sk, tb⟩) = ⟨some a, some b, sk, tb⟩ := by
  have hskne : sk ≠ "" := by rcases hs with h | h | h | h <;> simp [h]
  have htbne : tb ≠ "" := by rcases ht with h | h <;> simp [h]
  unfold decodeParams encodeFilter
  simp only [FilterState.mk.injEq]
  exact ⟨decodeNum_encode 0 ha0, decodeNum_encode 100 hb0,
    decodeStr_encode ("time") hskne, decodeStr_encode ("pending") htbne⟩

/-- Witness for C3 at a concrete valid filter. -/
theorem decode_encode_roundtrip_witness :
    decodeParams (encodeFilter ⟨some 30, some 70, "score", "reviewed"⟩) =
      ⟨some 30, some 70, "score", "reviewed"⟩ :=
  decode_encode_roundtrip 30 70 ("score") ("reviewed") (by decide) (by decide) (by decide)
    (by decide) (by decide) (Or.inr (Or.inr (Or.inr rfl))) (Or.inr rfl)

/-- C4 counterexample: on a representation with `scoreMin=80`, `scoreMax=20`
and `sort=garbage`, the decoder neither fails (it returns the inverted range
unchanged — it performs no `scoreMin ≤ scoreMax` validation at all) nor
falls back to the default sort key: the unrecognized value is kept
verbatim. -/
theorem decode_no_validation_counterexample :
    (decodeParams badParams).scoreMin = some 80 ∧
    (decodeParams badParams).scoreMax = some 20 ∧
    (80 : Int) > 20 ∧
    (decodeParams badParams).sortBy = "garbage" ∧
    (decodeParams badParams).sortBy ≠ "time" := by
  refine ⟨?_, ?_, by norm_num, ?_, ?_⟩ <;> decide

/-- C4 as amended: the decoder fills every omitted key with its documented
default and never fails — there is no `scoreMin ≤ scoreMax` check, and an
unrecognized non-empty sort value is retained verbatim rather than replaced
by the default (only an absent or empty value falls back). -/
theorem decode_fills_defaults (p : UrlParams) :
    (p.scoreMin = none → (decodeParams p).scoreMin = some 0) ∧
    (p.scoreMax = none → (decodeParams p).scoreMax = some 100) ∧
    (p.sort = none → (decodeParams p).sortBy = "time") ∧
    (p.tab = none → (decodeParams p).activeTab = "pending") ∧
    (∀ s : String, p.sort = some s → s ≠ "" → (decodeParams p).sortBy = s) := by
  refine ⟨?_, ?_, ?_, ?_, ?_⟩
  · intro h; simp [decodeParams, decodeNum, h]
  · intro h; simp [decodeParams, decodeNum, h]
  · intro h; simp [decodeParams, decodeStr, h]
  · intro h; simp [decodeParams, decodeStr, h]
  · intro s h hne; simp [decodeParams, decodeStr, h, hne]

/-- Witness for the amended C4 at the empty representation and at
`badParams`. -/
theorem decode_fills_defaults_witness :
    (decodeParams ⟨none, none, none, none⟩).scoreMin = some 0 ∧
    (decodeParams badParams).sortBy = "garbage" :=
  ⟨(decode_fills_defaults ⟨none, none, none, none⟩).1 rfl,
    (decode_fills_defaults badParams).2.2.2.2 ("garbage") rfl (by decide)⟩

end Codec

namespace Dash

/-- C7: a fetch snapshot applied to the store is installed verbatim — the
visible message list equals the server-returned list in exactly its order,
with no client-side re-sort or re-filter; in particular the scenario
response sorted by descending score (0.9, 0.5, 0.31) is displayed in
exactly that order. -/
theorem fetch_preserves_server_order :
    (∀ (s : DashState) (d : QueueData),
      (applyFetchSuccess s d).messages = d.pending_messages) ∧
    (applyFetchSuccess initState snapSorted).messages = [msgHigh, msgMid, msgLow] :=
  ⟨fun _ _ => rfl, rfl⟩

/-- C1 counterexample: two fetch invocations are issued; the response of the
later invocation (`snapNew`) arrives first and the stale response
(`snapOld`) arrives second.  The stale response is applied and determines
the final store state, so a response that is not the latest issued is not
discarded. -/
theorem stale_response_applied_counterexample :
    (runFetchArrivals initState [snapNew, snapOld]).messages = snapOld.pending_messages ∧
    snapOld.pending_messages ≠ snapNew.pending_messages := by
  refine ⟨rfl, ?_⟩
  decide

/-- C1 as amended: `fetchMessages` carries no sequence number and performs
no staleness check; every arriving response is applied to the store
unconditionally in arrival order, so the final store state is that of the
last-arriving response, whichever invocation it belongs to. -/
theorem every_arrival_applied (s : DashState) (ds : List QueueData) (d : QueueData) :
    runFetchArrivals s (ds ++ [d]) = applyFetchSuccess (runFetchArrivals s ds) d ∧
    (runFetchArrivals s (ds ++ [d])).messages = d.pending_messages := by
  constructor
  · unfold runFetchArrivals
    rw [List.foldl_append]
    rfl
  · unfold runFetchArrivals
    rw [List.foldl_append]
    rfl

/-- C2 counterexample: over the selection `{1, 2}` the request for id 1
succeeds and the one for id 2 fails; `Promise.all` rejects, so nothing at
all is removed — the id whose request succeeded stays visible and selected
(and the code produces no per-id succeeded/failed aggregate). -/
theorem bulk_partial_failure_counterexample :
    bulkResults 1 = true ∧ bulkResults 2 = false ∧
    handleBulkMarkReviewed bulkState bulkResults = bulkState ∧
    msg1 ∈ (handleBulkMarkReviewed bulkState bulkResults).messages ∧
    (1 : Int) ∈ (handleBulkMarkReviewed bulkState bulkResults).selectedIds := by
  refine ⟨rfl, rfl, ?_, ?_, ?_⟩ <;> decide

/-- C2 as amended: the bulk action is all-or-nothing on the client state —
when every per-id request succeeds, exactly the selected ids are removed
from the store and the selection is cleared; when any per-id request fails,
the store and the selection are left completely unchanged. -/
theorem bulk_all_or_nothing (s : DashState) (r : Int → Bool) :
    ((∀ i ∈ s.selectedIds, r i = true) →
      (∀ m : Message, m ∈ (handleBulkMarkReviewed s r).messages ↔
        m ∈ s.messages ∧ m.id ∉ s.selectedIds) ∧
      (handleBulkMarkReviewed s r).selectedIds = []) ∧
    ((∃ i ∈ s.selectedIds, r i = false) → handleBulkMarkReviewed s r = s) := by
  constructor
  · intro hall
    have hcond : s.selectedIds.all r = true := List.all_eq_true.mpr hall
    unfold handleBulkMarkReviewed
    rw [if_pos hcond]
    refine ⟨?_, rfl⟩
    intro m
    simp [List.mem_filter]
  · rintro ⟨i, hi, hri⟩
    unfold handleBulkMarkReviewed
    rw [if_neg ?hc]
    case hc =>
      intro hall
      rw [List.all_eq_true] at hall
      have := hall i hi
      rw [hri] at this
      exact Bool.false_ne_true this

/-- Witness for the amended C2: the all-or-nothing behaviour at the concrete
partial-failure input. -/
theorem bulk_all_or_nothing_witness :
    handleBulkMarkReviewed bulkState bulkResults = bulkState :=
  (bulk_all_or_nothing bulkState bulkResults).2 ⟨2, by decide, by decide⟩

/-- C8 counterexample: a fetch that replaces the snapshot with a message set
not containing the selected id 1 leaves the selection untouched, so
afterwards the selection is not a subset of the visible ids. -/
theorem selection_escapes_snapshot_counterexample :
    (applyFetchSuccess selState snapNew).selectedIds = [1] ∧
    (1 : Int) ∉ (applyFetchSuccess selState snapNew).messages.map Message.id := by
  refine ⟨rfl, ?_⟩
  decide

/-- C8 as amended: changing the active tab clears the selection entirely,
but a fetch that replaces the snapshot leaves the selection unchanged —
previously selected ids absent from the new message set remain selected, so
selection ⊆ visible ids is not re-established by fetches. -/
theorem tab_clears_selection_fetch_does_not (s : DashState) (v : String) (d : QueueData) :
    (handleTabChange s v).selectedIds = [] ∧
    (applyFetchSuccess s d).selectedIds = s.selectedIds :=
  ⟨rfl, rfl⟩

/-- C10: when the single-item review request for `msgId` succeeds, exactly
the messages carrying that id are removed and that id leaves the selection,
while every other message and selected id is kept in its original relative
order (the new lists are sublists of the old); when the request fails, the
whole state is unchanged. -/
theorem markReviewed_frame (s : DashState) (msgId : Int) :
    handleMarkReviewed s msgId false = s ∧
    (∀ m : Message, m ∈ (handleMarkReviewed s msgId true).messages ↔
      m ∈ s.messages ∧ m.id ≠ msgId) ∧
    (handleMarkReviewed s msgId true).messages.Sublist s.messages ∧
    (∀ j : Int, j ∈ (handleMarkReviewed s msgId true).selectedIds ↔
      j ∈ s.selectedIds ∧ j ≠ msgId) ∧
    (handleMarkReviewed s msgId true).selectedIds.Sublist s.selectedIds := by
  refine ⟨rfl, ?_, ?_, ?_, ?_⟩
  · intro m
    simp [handleMarkReviewed, List.mem_filter]
  · exact List.filter_sublist s.messages
  · intro j
    simp [handleMarkReviewed, List.mem_filter]
  · exact List.filter_sublist s.selectedIds

end Dash

namespace ApiClient

/-- C9 counterexample: a 401 on the fetch-by-date operation does force the
logout — credential and user cleared, redirect to the login page — but the
rejection is also propagated to the caller, whose normal error display
still runs: the status message is set.  The logout therefore does not
happen instead of the normal error display. -/
theorem auth401_not_instead_counterexample :
    (fetchByDateOn401 Dash.initState authBefore).2.storage = ⟨none, none⟩ ∧
    (fetchByDateOn401 Dash.initState authBefore).2.redirect = some ("/login") ∧
    (fetchByDateOn401 Dash.initState authBefore).1.statusMessage =
      some ("Error fetching messages") :=
  ⟨rfl, rfl, rfl⟩

/-- C9 as amended: any response with HTTP status 401 causes a forced logout
— the stored credential and user are cleared and the client is redirected
to the login page — and no retry is issued; the rejection is additionally
propagated onward, so the caller's normal per-operation error handling
still runs after the logout side effects.  A non-401 error leaves the
stored credential untouched and forces no redirect. -/
theorem auth401_forces_logout (st : AuthStorage) (status : Option Int) :
    (status = some 401 →
      responseInterceptorOnError st status = ⟨⟨none, none⟩, some ("/login"), true⟩) ∧
    (status ≠ some 401 →
      responseInterceptorOnError st status = ⟨st, none, true⟩) := by
  constructor
  · intro h
    simp [responseInterceptorOnError, h]
  · intro h
    simp [responseInterceptorOnError, h]

/-- Witness for the amended C9 at a concrete logged-in session. -/
theorem auth401_forces_logout_witness :
    responseInterceptorOnError authBefore (some 401) =
      ⟨⟨none, none⟩, some ("/login"), true⟩ :=
  (auth401_forces_logout authBefore (some 401)).1 rfl

end ApiClient

namespace Legacy

theorem lastTick_spec (backend : Nat → PollResult) (attempts : Nat) :
    (lastTick backend attempts).polls = 1 ∧ (lastTick backend attempts).ingesting = false := by
  unfold lastTick
  cases backend (attempts + 1) with
  | err => exact ⟨rfl, rfl⟩
  | ok p =>
    by_cases hp : 0 < p
    · simp [hp]
    · simp [hp]

theorem pollLoop_spec (backend : Nat → PollResult) :
    ∀ (remaining attempts : Nat),
      (pollLoop backend attempts remaining).polls ≤ max remaining 1 ∧
      (pollLoop backend attempts remaining).ingesting = false := by
  intro remaining
  induction remaining with
  | zero =>
    intro attempts
    have h := lastTick_spec backend attempts
    exact ⟨by rw [show pollLoop backend attempts 0 = lastTick backend attempts from rfl, h.1]; decide,
      by rw [show pollLoop backend attempts 0 = lastTick backend attempts from rfl]; exact h.2⟩
  | succ n ih =>
    intro attempts
    cases n with
    | zero =>
      have h := lastTick_spec backend attempts
      exact ⟨by rw [show pollLoop backend attempts 1 = lastTick backend attempts from rfl, h.1]; decide,
        by rw [show pollLoop backend attempts 1 = lastTick backend attempts from rfl]; exact h.2⟩
    | succ m =>
      cases hb : backend (attempts + 1) with
      | err =>
        constructor
        · simp [pollLoop, hb]
        · simp [pollLoop, hb]
      | ok p =>
        by_cases hp : 0 < p
        · constructor
          · simp [pollLoop, hb, hp]
          · simp [pollLoop, hb, hp]
        · have hrest := ih (attempts + 1)
          constructor
          · have h1 := hrest.1
            rw [Nat.max_eq_left (by omega)] at h1
            rw [Nat.max_eq_left (by omega)]
            simp only [pollLoop, hb, if_neg hp]
            omega
          · simp only [pollLoop, hb, if_neg hp]
            exact hrest.2

/-- C5: with `maxAttempts = 9` and a backend that never reports a pending
message, the started ingestion job polls exactly 9 times, ends in the
timeout branch (not the failure branch), triggers exactly one queue refetch
and lowers `ingesting` — idle, startable again; moreover every started job
with `maxAttempts = 9` polls at most 9 times and ends with `ingesting`
lowered, whatever the backend reports. -/
theorem ingestion_timeout_after_nine_polls :
    handlePullMessages true (fun _ => PollResult.ok 0) 9 =
      ⟨1, 9, 1, JobOutcome.timedOut, false⟩ ∧
    ∀ (ok : Bool) (backend : Nat → PollResult),
      (handlePullMessages ok backend 9).polls ≤ 9 ∧
      (handlePullMessages ok backend 9).ingesting = false := by
  refine ⟨rfl, ?_⟩
  intro ok backend
  cases ok with
  | false => exact ⟨by show (0 : Nat) ≤ 9; decide, rfl⟩
  | true =>
    have h := pollLoop_spec backend 9 0
    refine ⟨?_, ?_⟩
    · show (pollLoop backend 0 9).polls ≤ 9
      have h1 := h.1
      rw [Nat.max_eq_left (by omega)] at h1
      exact h1
    · show (pollLoop backend 0 9).ingesting = false
      exact h.2

/-- C6: while an ingestion job is active (`ingesting = true`), the Pull
Messages button is disabled, so a concurrent start request is rejected
synchronously: the click does nothing — the state is unchanged and no job
runs, in particular no second backend ingestion action is triggered. -/
theorem concurrent_start_rejected (s : UIState) (ok : Bool)
    (backend : Nat → PollResult) (maxAttempts : Nat) (h : s.ingesting = true) :
    pullButtonClick s ok backend maxAttempts = (s, none) := by
  unfold pullButtonClick
  rw [if_pos h]

/-- Witness for C6 at a concrete active state. -/
theorem concurrent_start_rejected_witness :
    pullButtonClick ⟨true⟩ true (fun _ => PollResult.ok 0) 9 = (⟨true⟩, none) :=
  concurrent_start_rejected ⟨true⟩ true (fun _ => PollResult.ok 0) 9 rfl

end Legacy
